import Mathlib

/-!
Verification of the resilient download engine of `geo_downloader`
(`src/geo_downloader/downloader.py`, `utils.py`, `cli.py`) against its
natural-language specification.

The Python code is shallowly embedded: pure helpers become Lean functions,
the stateful download loop becomes explicit state passing (the state of the
one local file involved is its size, an `Option Nat`, since the code only
ever inspects existence and `os.path.getsize`), network effects become
oracle functions supplied as arguments, and Python exceptions become
`Except String`.  Python integers that may be `None` are `Option Int`;
comparing `None` with an `int` raises `TypeError` in Python 3, which the
embedding reproduces as an `Except.error`.
-/

namespace GeoDL

/-! ### String helpers

Python's `in` operator on strings (substring test), `str.endswith` and
`str.lower` (the filenames involved are ASCII).  Substring containment is
defined recursively over the character list so that it can both be executed
by `decide` and related to an existential characterisation. -/

/-- `leadsChars n h` : the list `n` is an initial segment of `h`
(Python `h.startswith(n)` on the character level). -/
def leadsChars : List Char → List Char → Bool
  | [], _ => true
  | _ :: _, [] => false
  | a :: as, b :: bs => a == b && leadsChars as bs

/-- `containsChars n h` : the list `n` occurs contiguously inside `h`
(Python `n in h` on the character level). -/
def containsChars (needle : List Char) : List Char → Bool
  | [] => leadsChars needle []
  | c :: rest => leadsChars needle (c :: rest) || containsChars needle rest

/-- `trailsChars n h` : the list `n` is a final segment of `h`
(Python `h.endswith(n)` on the character level). -/
def trailsChars (needle hay : List Char) : Bool :=
  leadsChars needle.reverse hay.reverse

/-- Python `needle in hay` for strings. -/
def strContains (hay needle : String) : Bool :=
  containsChars needle.data hay.data

/-- Python `hay.endswith(needle)`. -/
def strEndsWith (hay needle : String) : Bool :=
  trailsChars needle.data hay.data

/-- Python `s.lower()` (the classification keywords and the filenames the
claims quantify over are ASCII, where `Char.toLower` agrees with Python). -/
def lower (s : String) : String := String.mk (s.data.map Char.toLower)

/-! ### Raw-file classification — `GEODownloader._check_raw_files`
(downloader.py lines 163-206).  The network fetch of the directory listing
is abstracted into the list of anchor names `entries`; the function's
classification core is the filename pipeline below. -/

/-- downloader.py line 184: `raw_keywords` exactly as the source writes them
(note the leading dots on the file-type keywords). -/
def raw_keywords : List String :=
  ["raw", ".idat", ".cel", ".fastq", ".fq", ".sra", ".bam", ".cram",
   "signal", "intensity", "reads", "sequencing"]

/-- downloader.py lines 187-190: `is_raw` for one filename. -/
def is_raw_name (filename : String) : Bool :=
  let filename_lower := lower filename
  raw_keywords.any (fun keyword => strContains filename_lower keyword)
    || strContains filename_lower "_raw."
    || strEndsWith filename_lower "_raw.tar"

/-- downloader.py lines 180-181: drop the two index entries before
classification. -/
def candidate_names (entries : List String) : List String :=
  entries.filter (fun n => n != "Parent Directory" && n != "filelist.txt")

/-- The filenames `_check_raw_files` classifies as raw, in listing order,
together with the `has_raw` flag (`len(raw_files) > 0`, line 206). -/
def check_raw_files (entries : List String) : List String × Bool :=
  let raw := (candidate_names entries).filter is_raw_name
  (raw, raw.length > 0)

/-- The keyword list exactly as the specification's sentence spells it
(claim C5): the file-type keywords without their leading dots.  Kept purely
for comparison with `raw_keywords`; `is_raw_name` above is the source's
function. -/
def claimed_keywords : List String :=
  ["raw", "idat", "cel", "fastq", "fq", "sra", "bam", "cram",
   "signal", "intensity", "reads", "sequencing"]

/-- The classification the specification's sentence describes, word for
word, with `claimed_keywords` in place of the source's dotted list. -/
def is_raw_name_claimed (filename : String) : Bool :=
  let filename_lower := lower filename
  claimed_keywords.any (fun keyword => strContains filename_lower keyword)
    || strContains filename_lower "_raw."
    || strEndsWith filename_lower "_raw.tar"

/-- `n` occurs contiguously inside `h`: the specification-level reading of
"the filename contains the keyword". -/
def occursIn (needle hay : List Char) : Prop :=
  ∃ pre post, hay = pre ++ needle ++ post

/-- `n` is a final segment of `h`: the specification-level reading of
"the filename ends in". -/
def endsIn (needle hay : List Char) : Prop :=
  ∃ pre, hay = pre ++ needle

theorem leadsChars_iff (n h : List Char) :
    leadsChars n h = true ↔ ∃ t, h = n ++ t := by
  induction n generalizing h with
  | nil => simp [leadsChars]
  | cons a as ih =>
    cases h with
    | nil => simp [leadsChars]
    | cons b bs =>
      simp only [leadsChars, Bool.and_eq_true, beq_iff_eq, ih]
      constructor
      · rintro ⟨rfl, t, rfl⟩; exact ⟨t, rfl⟩
      · rintro ⟨t, ht⟩
        injection ht with h1 h2
        exact ⟨h1.symm, t, h2⟩

theorem containsChars_iff (n h : List Char) :
    containsChars n h = true ↔ occursIn n h := by
  induction h with
  | nil =>
    simp only [containsChars, leadsChars_iff, occursIn]
    constructor
    · rintro ⟨t, ht⟩
      exact ⟨[], t, by simpa using ht⟩
    · rintro ⟨pre, post, hp⟩
      have h0 : pre = [] ∧ n = [] ∧ post = [] := by simpa using hp.symm
      rcases h0 with ⟨rfl, rfl, rfl⟩
      exact ⟨[], rfl⟩
  | cons c rest ih =>
    simp only [containsChars, Bool.or_eq_true, leadsChars_iff, ih, occursIn]
    constructor
    · rintro (⟨t, ht⟩ | ⟨pre, post, hp⟩)
      · exact ⟨[], t, by simpa using ht⟩
      · exact ⟨c :: pre, post, by simp [hp]⟩
    · rintro ⟨pre, post, hp⟩
      cases pre with
      | nil => exact Or.inl ⟨post, by simpa using hp⟩
      | cons p ps =>
        injection hp with h1 h2
        exact Or.inr ⟨ps, post, h2⟩

theorem trailsChars_iff (n h : List Char) :
    trailsChars n h = true ↔ endsIn n h := by
  unfold trailsChars endsIn
  rw [leadsChars_iff]
  constructor
  · rintro ⟨t, ht⟩
    refine ⟨t.reverse, ?_⟩
    have := congrArg List.reverse ht
    simpa using this
  · rintro ⟨pre, rfl⟩
    exact ⟨pre.reverse, by simp⟩

/-! ### Local-file helpers — `utils.py` -/

/-- utils.py line 194: the characters `safe_filename` replaces with `_`. -/
def replaced_chars : List Char := ['<', '>', ':', '"', '/', '\\', '|', '?', '*']

/-- utils.py lines 183-207: `safe_filename` — replace each unsafe character
with `_`, strip leading/trailing `.` and space, fall back to
`"unnamed_file"` when nothing is left. -/
def safe_filename (filename : String) : String :=
  let replaced := filename.data.map (fun c => if replaced_chars.contains c then '_' else c)
  let stripped :=
    ((replaced.dropWhile (fun c => c = '.' ∨ c = ' ')).reverse.dropWhile
      (fun c => c = '.' ∨ c = ' ')).reverse
  if stripped.isEmpty then "unnamed_file" else String.mk stripped

/-- downloader.py line 320: `os.path.join(output_dir, safe_name)` on a
POSIX path. -/
def local_path_of (output_dir filename : String) : String :=
  output_dir ++ "/" ++ safe_filename filename

/-- utils.py lines 127-145: `verify_file_integrity` — the size of the file
at the path (`none` when it does not exist) compared with the expected
size; a missing file is invalid. -/
def verify_file_integrity (localSize : Option Nat) (expected_size : Int) : Bool :=
  match localSize with
  | none => false
  | some actual_size => (actual_size : Int) == expected_size

/-! ### Data model

Python passes file and dataset outcomes around as dicts; the structures
below carry exactly the keys the engine reads.  `size_bytes` of a
`RemoteFile` is `Option Int` because `get_file_size` (utils.py lines
102-124) returns `None` when the HEAD probe fails, and that `None` is
stored verbatim in the `raw_files` entry (downloader.py line 199). -/

/-- One entry of `metadata["raw_files"]` (downloader.py lines 196-201);
`size_human` is display-only and omitted. -/
structure RemoteFile where
  filename : String
  url : String
  size_bytes : Option Int
  deriving Repr, DecidableEq

/-- The per-file outcome dict produced by `_download_single_file` and by
the parallel dispatcher's exception handler.  `local_path` is `none` for
the synthetic dict of downloader.py lines 303-308, which has no
`local_path` key; `size_bytes` is `Option Int` because the synthetic dict
copies `file_info.get("size_bytes", 0)`, which can be `None`. -/
structure FileResult where
  filename : String
  local_path : Option String
  status : String
  error : Option String
  size_bytes : Option Int
  deriving Repr, DecidableEq

/-- The configuration keys `_download_single_file` reads (config.py
defaults: 3, 2, true).  `retry_delay` is kept as a natural number of
seconds; it only ever flows into `time.sleep`. -/
structure RetryConfig where
  max_retries : Nat
  retry_delay : Nat
  verify_integrity : Bool
  deriving Repr, DecidableEq

/-! ### Python comparisons on a possibly-`None` size

downloader.py compares `expected_size` (an `int` or `None`) with ints at
lines 323, 341 (`expected_size > 0`) and 384
(`existing_size < expected_size`).  In Python 3 such a comparison raises
`TypeError` when the value is `None`. -/

def typeErrGt : String :=
  "TypeError: '>' not supported between instances of 'NoneType' and 'int'"

def typeErrLt : String :=
  "TypeError: '<' not supported between instances of 'int' and 'NoneType'"

/-- Python `expected_size > 0` where `expected_size : int | None`. -/
def pyGtZero : Option Int → Except String Bool
  | some e => .ok (e > 0)
  | none => .error typeErrGt

/-- Python `existing_size < expected_size` where the left side is an `int`
and the right side is `int | None`. -/
def pyLtOpt (existing : Int) : Option Int → Except String Bool
  | some e => .ok (existing < e)
  | none => .error typeErrLt

/-! ### File Transfer Unit — `GEODownloader._download_with_progress`
(downloader.py lines 376-434)

The local file's state is its size (`Option Nat`, `none` = absent).  The
remote side is an oracle: for each attempt the caller supplies an
`AttemptOutcome` saying how the HTTP request and the chunked streaming of
that attempt went.  Progress printing (lines 422-434) affects no state and
is omitted. -/

/-- Lines 378-395: what the function decides before opening the
connection: the resume offset, the file-open mode (`append` = `'ab'`,
otherwise `'wb'`), and the `Range` header (added only when
`resume_pos > 0`, line 394). -/
structure TransferPlan where
  resume_pos : Nat
  append : Bool
  range_request : Option Nat
  deriving Repr, DecidableEq

/-- Lines 378-395.  A file is re-opened fresh (truncating) unless it exists
with size strictly below the expected size; comparing against a `None`
expected size raises `TypeError`. -/
def plan_transfer (localSize : Option Nat) (expected_size : Option Int) :
    Except String TransferPlan :=
  match localSize with
  | none => .ok ⟨0, false, none⟩
  | some existing_size =>
    match pyLtOpt (existing_size : Int) expected_size with
    | .error e => .error e
    | .ok true => .ok ⟨existing_size, true, if existing_size > 0 then some existing_size else none⟩
    | .ok false => .ok ⟨0, false, none⟩

/-- How one transfer attempt went on the remote/stream side:
`success n` — the request succeeded and `n` bytes were streamed to the end
of the body; `abortErr` — the request itself failed (the local file is
untouched, it was never opened); `streamErr msg w` — the request succeeded
but streaming failed after `w` bytes were written. -/
inductive AttemptOutcome where
  | success (bytes : Nat)
  | abortErr (msg : String)
  | streamErr (msg : String) (written : Nat)
  deriving Repr, DecidableEq

/-- Lines 376-434 as a state transformer: the new local file size together
with the attempt's outcome (`.ok bytesOnDisk` or the raised exception's
message).  The file is opened (truncating unless appending) only once the
request has succeeded, exactly as in the source, where `open` follows
`urlopen`. -/
def download_with_progress (localSize : Option Nat) (expected_size : Option Int)
    (oc : AttemptOutcome) : Option Nat × Except String Nat :=
  match plan_transfer localSize expected_size with
  | .error e => (localSize, .error e)
  | .ok plan =>
    let base := if plan.append then plan.resume_pos else 0
    match oc with
    | .abortErr msg => (localSize, .error msg)
    | .streamErr msg written => (some (base + written), .error msg)
    | .success bytes => (some (base + bytes), .ok (base + bytes))

/-! ### Retry Wrapper — `GEODownloader._download_single_file`
(downloader.py lines 312-374) -/

/-- Lines 340-343: after a successful transfer, verify the on-disk size
when the expected size is known and verification is enabled.  Python
evaluates `expected_size > 0` first, so a `None` expected size raises
`TypeError` before the flag is read. -/
def post_verify (cfg : RetryConfig) (expected_size : Option Int)
    (localSize : Option Nat) : Except String Unit :=
  match pyGtZero expected_size with
  | .error e => .error e
  | .ok kn =>
    if kn && cfg.verify_integrity then
      if verify_file_integrity localSize (expected_size.getD 0) then .ok ()
      else .error "Downloaded file size doesn't match expected size"
    else .ok ()

/-- One iteration of the retry loop's `try` block (lines 337-343): the
transfer, then the integrity check.  Returns the new local file size and
either `.ok bytesOnDisk` or the caught exception's message. -/
def attempt_once (cfg : RetryConfig) (expected_size : Option Int)
    (localSize : Option Nat) (oc : AttemptOutcome) : Option Nat × Except String Nat :=
  match download_with_progress localSize expected_size oc with
  | (newLocal, .error e) => (newLocal, .error e)
  | (newLocal, .ok n) =>
    match post_verify cfg expected_size newLocal with
    | .error e => (newLocal, .error e)
    | .ok _ => (newLocal, .ok n)

/-- What the retry loop did besides its returned dict: how many transfer
attempts ran, the `time.sleep(retry_delay)` waits performed between failed
attempts (line 363), and the final state of the local file. -/
structure RetryTrace where
  attempts : Nat
  sleeps : List Nat
  finalLocal : Option Nat
  deriving Repr, DecidableEq

instance instExceptDecEq {ε α : Type} [DecidableEq ε] [DecidableEq α] :
    DecidableEq (Except ε α)
  | .error a, .error b =>
    if h : a = b then .isTrue (by rw [h]) else .isFalse (by simp [h])
  | .error _, .ok _ => .isFalse (by simp)
  | .ok _, .error _ => .isFalse (by simp)
  | .ok a, .ok b =>
    if h : a = b then .isTrue (by rw [h]) else .isFalse (by simp [h])

/-- Lines 336-374: the `for attempt in range(max_retries + 1)` loop.
`idx` is the current value of `attempt`, `remaining` the number of further
iterations the `range` still holds, `serve` the per-attempt remote oracle.
A successful attempt returns `completed` with
`size_bytes = os.path.getsize(local_path)`; once `remaining = 0` a failure
returns `failed` with the last error and `size_bytes = 0`. -/
def retry_go (cfg : RetryConfig) (fname : String) (path : String)
    (expected_size : Option Int) (serve : Nat → AttemptOutcome) :
    Nat → Nat → Option Nat → FileResult × RetryTrace
  | idx, 0, localSize =>
    match attempt_once cfg expected_size localSize (serve idx) with
    | (newLocal, .ok n) =>
      (⟨fname, some path, "completed", none, some (n : Int)⟩, ⟨1, [], newLocal⟩)
    | (newLocal, .error msg) =>
      (⟨fname, some path, "failed", some msg, some 0⟩, ⟨1, [], newLocal⟩)
  | idx, remaining + 1, localSize =>
    match attempt_once cfg expected_size localSize (serve idx) with
    | (newLocal, .ok n) =>
      (⟨fname, some path, "completed", none, some (n : Int)⟩, ⟨1, [], newLocal⟩)
    | (newLocal, .error _) =>
      let rest := retry_go cfg fname path expected_size serve (idx + 1) remaining newLocal
      (rest.1, ⟨rest.2.attempts + 1, cfg.retry_delay :: rest.2.sleeps, rest.2.finalLocal⟩)

/-- Lines 322-333: the pre-loop short-circuit test
`os.path.exists(local_path) and expected_size > 0` followed by
`verify_file_integrity`.  This code runs outside the `try`, so the
`TypeError` raised by a `None` expected size propagates out of
`_download_single_file`. -/
def short_circuit_check (expected_size : Option Int) (localSize : Option Nat) :
    Except String Bool :=
  match localSize with
  | none => .ok false
  | some existing =>
    match pyGtZero expected_size with
    | .error e => .error e
    | .ok true => .ok (verify_file_integrity (some existing) (expected_size.getD 0))
    | .ok false => .ok false

/-- `_download_single_file` (lines 312-374) over one `RemoteFile`.
`fs` gives the size of any pre-existing file at a path (`none` = absent);
`serve` is the remote oracle for the successive attempts.  The result is
the returned dict together with the loop's trace, or (`.error`) an
exception that escaped the function. -/
def download_single_file (cfg : RetryConfig) (output_dir : String)
    (file : RemoteFile) (fs : String → Option Nat) (serve : Nat → AttemptOutcome) :
    Except String (FileResult × RetryTrace) :=
  let path := local_path_of output_dir file.filename
  let initLocal := fs path
  match short_circuit_check file.size_bytes initLocal with
  | .error e => .error e
  | .ok true =>
    .ok (⟨file.filename, some path, "completed", none, file.size_bytes⟩, ⟨0, [], initLocal⟩)
  | .ok false =>
    .ok (retry_go cfg file.filename path file.size_bytes serve 0 cfg.max_retries initLocal)

/-- The local file size seen at the start of attempt `idx + j` when the
loop entered attempt `idx` with file state `ls`: the trace of states the
retry loop steps through. -/
def iter_state (cfg : RetryConfig) (expected_size : Option Int)
    (serve : Nat → AttemptOutcome) : Nat → Nat → Option Nat → Option Nat
  | _, 0, ls => ls
  | idx, j + 1, ls =>
    iter_state cfg expected_size serve (idx + 1) j
      (attempt_once cfg expected_size ls (serve idx)).1

/-! ### Parallel Dispatcher — `GEODownloader._download_files_parallel`
(downloader.py lines 283-310)

Each submitted task either returns a `FileResult` dict or raises; the
worker pool is abstracted into a per-file outcome `task` and a completion
order (a permutation of the submitted files) in which `as_completed`
yields the futures. -/

/-- What `future.result()` does for one file's task. -/
inductive TaskOutcome where
  | result (r : FileResult)
  | raised (msg : String)
  deriving Repr, DecidableEq

/-- Lines 297-308: collect one future — a raised exception is converted
into the synthetic dict `{filename, status: "failed", error: str(e),
size_bytes: file_info.get("size_bytes", 0)}` (which has no `local_path`
key; the `get` default is unused because every `raw_files` entry carries a
`size_bytes` key, possibly `None`). -/
def collect_task (task : RemoteFile → TaskOutcome) (file : RemoteFile) : FileResult :=
  match task file with
  | .result r => r
  | .raised msg => ⟨file.filename, none, "failed", some msg, file.size_bytes⟩

/-- Lines 283-310: the dispatcher's aggregate, with `completion_order` the
order in which the futures completed. -/
def download_files_parallel (task : RemoteFile → TaskOutcome)
    (completion_order : List RemoteFile) : List FileResult :=
  completion_order.map (collect_task task)

/-! ### Dataset download — `GEODownloader.download_gse_dataset`
(downloader.py lines 208-266) -/

/-- The dataset-level outcome dict, restricted to the keys the engine
reads downstream (`metadata` is carried through but never read by the
orchestrator or the CLI and is omitted). -/
structure DatasetResult where
  gse_id : String
  status : String
  error : Option String
  files : List FileResult
  deriving Repr, DecidableEq

/-- Lines 249-258: derive the dataset status from the per-file results
(the source binds `successful` and `total` locally; they are inlined
here). -/
def derive_status (results : List FileResult) : String :=
  if (results.filter (fun r => r.status == "completed")).length == results.length then
    "completed"
  else if (results.filter (fun r => r.status == "completed")).length > 0 then
    "partial"
  else "failed"

/-- Lines 208-266.  `meta_error` is `metadata["error"]`, `raw_files` is
`metadata["raw_files"]` (and `metadata["has_raw_data"]` is
`len(raw_files) > 0`, line 206); `dl` gives each raw file's
`FileResult`.  The sequential path processes `raw_files` in order; the
parallel path permutes the same per-file results, which leaves the counts
in `derive_status` unchanged, so one `List.map` stands for both. -/
def download_gse_dataset (gse_id : String) (meta_error : Option String)
    (raw_files : List RemoteFile) (dl : RemoteFile → FileResult) : DatasetResult :=
  match meta_error with
  | some e => ⟨gse_id, "failed", some e, []⟩
  | none =>
    if raw_files.isEmpty then
      ⟨gse_id, "no_raw_data", some "No raw data files found", []⟩
    else
      let results := raw_files.map dl
      ⟨gse_id, derive_status results, none, results⟩

/-! ### Run Orchestrator — `GEODownloader.download_multiple_datasets`,
`load_download_status`, `save_download_status`
(downloader.py lines 436-522) -/

/-- The in-memory `self.download_status` dict: identifier to latest
dataset result, as an association list (later entries override via
`status_update`). -/
def StatusMap : Type := List (String × DatasetResult)

instance : DecidableEq StatusMap := inferInstanceAs (DecidableEq (List _))

/-- Python dict assignment `self.download_status[gse_id] = result`
(line 491): overwrite the key's entry or add it. -/
def status_update (m : StatusMap) (k : String) (v : DatasetResult) : StatusMap :=
  match m with
  | [] => [(k, v)]
  | (k', v') :: rest =>
    if k' = k then (k, v) :: rest else (k', v') :: status_update rest k v

/-- Python dict lookup. -/
def status_find (m : StatusMap) (k : String) : Option DatasetResult :=
  match m with
  | [] => none
  | (k', v') :: rest => if k' = k then some v' else status_find rest k

/-- What the orchestrator can find in the output directory's
`download_status.json` at start-up. -/
inductive StatusFile where
  | missing
  | corrupt
  | wellFormed (m : StatusMap)

/-- `load_download_status` (lines 444-453) applied to the initial empty
`self.download_status`: a missing file leaves the empty dict in place, a
file that fails to parse is discarded with a warning and the dict reset to
`{}` — in neither case does the run abort. -/
def load_download_status : StatusFile → StatusMap
  | .missing => []
  | .corrupt => []
  | .wellFormed m => m

/-- The per-identifier loop of `download_multiple_datasets` (lines
484-495), with `i` the 1-based `enumerate` index: returns the final
in-memory status, the snapshots handed to `save_download_status` by the
periodic `i % 5 == 0` saves (line 494), and the dataset results in input
order.  `save_download_status` itself (lines 436-442) swallows any write
error with a warning, so a save neither changes nor aborts the run and is
modelled as the recorded snapshot alone. -/
def run_loop (process : String → DatasetResult) :
    Nat → StatusMap → List String → StatusMap × List StatusMap × List DatasetResult
  | _, st, [] => (st, [], [])
  | i, st, gse_id :: rest =>
    let result := process gse_id
    let st' := status_update st gse_id result
    let r := run_loop process (i + 1) st' rest
    (r.1, (if i % 5 == 0 then [st'] else []) ++ r.2.1, result :: r.2.2)

/-- The summary dict built at lines 500-522 (counts only; `results` and
the wall-clock `total_time` are carried alongside below). -/
structure RunSummary where
  total : Nat
  completed : Nat
  partialCount : Nat
  failed : Nat
  deriving Repr, DecidableEq

/-- Lines 502-504: `completed`, `partial` and `failed` counts — the
`failed` count tests `r["status"] in ["failed", "no_raw_data"]`. -/
def run_summary (results : List DatasetResult) : RunSummary :=
  { total := results.length
    completed := (results.filter (fun r => r.status == "completed")).length
    partialCount := (results.filter (fun r => r.status == "partial")).length
    failed :=
      (results.filter (fun r => r.status == "failed" || r.status == "no_raw_data")).length }

/-- `download_multiple_datasets` (lines 455-522): `none` models the early
`{"error": "No GSE IDs provided"}` return for an empty input; otherwise
load the status file, run the loop, always save once more at the end
(line 498), and build the summary.  The returned triple is (summary,
save snapshots in order, final in-memory status). -/
def download_multiple_datasets (process : String → DatasetResult)
    (statusFile : StatusFile) (gse_ids : List String) :
    Option (RunSummary × List StatusMap × StatusMap) :=
  if gse_ids.isEmpty then none
  else
    let r := run_loop process 1 (load_download_status statusFile) gse_ids
    some (run_summary r.2.2, r.2.1 ++ [r.1], r.1)

/-! ### Process exit — `cli.py` `main` (lines 313-334) -/

/-- Lines 318-327: the exit status derived from the run summary: `0` when
`results["failed"] == 0`, else `1` (both the `[PARTIAL]` and the
`[FAILED]` branches call `sys.exit(1)`). -/
def main_exit_code (summary : RunSummary) : Nat :=
  if summary.failed == 0 then 0
  else if summary.completed > 0 then 1
  else 1

/-! ## Claims -/

/-- C5, counterexample.  The claim's keyword list carries the file-type
keywords without their leading dots; the source's list (downloader.py line
184) carries `'.cel'`, not `'cel'`.  The filename `"celfile.txt"` contains
the claimed keyword `cel` — so the claim classifies it raw — while the
source's classification returns `false` on it. -/
theorem c5_counterexample :
    is_raw_name_claimed "celfile.txt" = true ∧ is_raw_name "celfile.txt" = false := by
  constructor <;> decide

/-- C5, as amended: classification is a pure, case-insensitive function of
the filename — it returns `true` exactly when the lower-cased name
contains one of the source's keywords `raw`, `.idat`, `.cel`, `.fastq`,
`.fq`, `.sra`, `.bam`, `.cram`, `signal`, `intensity`, `reads`,
`sequencing` (the file-type keywords carry a leading dot), or contains
`_raw.`, or ends in `_raw.tar` — and entries named `"Parent Directory"` or
`"filelist.txt"` are excluded before classification. -/
theorem c5_raw_classification :
    (∀ filename : String,
        is_raw_name filename = true ↔
          ((∃ k ∈ raw_keywords, occursIn k.data (lower filename).data)
            ∨ occursIn "_raw.".data (lower filename).data
            ∨ endsIn "_raw.tar".data (lower filename).data))
    ∧ (∀ (entries : List String) (name : String),
        name ∈ (check_raw_files entries).1 ↔
          (name ∈ entries ∧ name ≠ "Parent Directory" ∧ name ≠ "filelist.txt"
            ∧ is_raw_name name = true)) := by
  constructor
  · intro filename
    simp only [is_raw_name, Bool.or_eq_true, List.any_eq_true, strContains, strEndsWith,
      containsChars_iff, trailsChars_iff]
    rw [or_assoc]
  · intro entries name
    simp only [check_raw_files, candidate_names, List.mem_filter, Bool.and_eq_true,
      bne_iff_ne, ne_eq]
    tauto

/-- C4, counterexample.  An existing local file of size `S = 0` with known
expected size `E = 10` satisfies `S < E`, so the claim requires a range
request starting at byte offset `0`; the source adds the `Range` header
only when `resume_pos > 0` (downloader.py line 394), so no range request
is issued (`range_request = none`, which differs from `some 0`), although
the file is opened in append mode. -/
theorem c4_counterexample :
    plan_transfer (some 0) (some 10) =
      .ok { resume_pos := 0, append := true, range_request := none }
    ∧ (none : Option Nat) ≠ some 0 := by
  refine ⟨rfl, ?_⟩
  simp

/-- C4, as amended: when a local file exists at the target path with size
`S` strictly below the known expected size `E`, the transfer opens the
file in append mode at resume position `S` (preserving its first `S`
bytes) and issues a range request starting at offset `S` when `S > 0` —
when `S = 0` it issues a plain full-body request, still in append mode;
in every other case (no existing file, or existing size at least `E`) it
starts fresh, truncating; and a resumed transfer whose stream delivers the
remaining `E - S` bytes leaves a local file of exactly `E` bytes. -/
theorem c4_resume_semantics (s E : Nat) :
    (s < E →
        plan_transfer (some s) (some (E : Int)) =
          .ok { resume_pos := s, append := true,
                range_request := if s > 0 then some s else none })
    ∧ (¬ s < E → plan_transfer (some s) (some (E : Int)) =
        .ok { resume_pos := 0, append := false, range_request := none })
    ∧ plan_transfer none (some (E : Int)) =
        .ok { resume_pos := 0, append := false, range_request := none }
    ∧ (s < E →
        download_with_progress (some s) (some (E : Int)) (.success (E - s)) =
          (some E, .ok E)) := by
  have hlt : ((s : Int) < (E : Int)) ↔ s < E := by exact_mod_cast Iff.rfl
  refine ⟨?_, ?_, ?_, ?_⟩
  · intro h
    simp [plan_transfer, pyLtOpt, hlt.mpr h]
  · intro h
    simp [plan_transfer, pyLtOpt, hlt, h]
  · rfl
  · intro h
    have hs : s + (E - s) = E := by omega
    simp [download_with_progress, plan_transfer, pyLtOpt, hlt.mpr h, hs]

/-- The message of a caught exception (`none` for a success). -/
def errMsg : Except String Nat → Option String
  | .ok _ => none
  | .error m => some m

/-- The `j`-th attempt of a retry loop that started with local file state
`init`: its state change and outcome. -/
def attempt_result (cfg : RetryConfig) (expected : Option Int)
    (serve : Nat → AttemptOutcome) (init : Option Nat) (j : Nat) :
    Option Nat × Except String Nat :=
  attempt_once cfg expected (iter_state cfg expected serve 0 j init) (serve j)

theorem retry_go_all_fail (cfg : RetryConfig) (fname path : String)
    (expected : Option Int) (serve : Nat → AttemptOutcome) :
    ∀ (r idx : Nat) (ls : Option Nat),
      (∀ j, j ≤ r → ∃ m,
        (attempt_once cfg expected (iter_state cfg expected serve idx j ls)
          (serve (idx + j))).2 = .error m) →
      retry_go cfg fname path expected serve idx r ls =
        (⟨fname, some path, "failed",
            errMsg (attempt_once cfg expected (iter_state cfg expected serve idx r ls)
              (serve (idx + r))).2, some 0⟩,
         ⟨r + 1, List.replicate r cfg.retry_delay,
            (attempt_once cfg expected (iter_state cfg expected serve idx r ls)
              (serve (idx + r))).1⟩) := by
  intro r
  induction r with
  | zero =>
    intro idx ls h
    obtain ⟨m, hm⟩ := h 0 (Nat.le_refl 0)
    simp only [iter_state, Nat.add_zero] at hm ⊢
    rcases hA : attempt_once cfg expected ls (serve idx) with ⟨nl, res⟩
    rw [hA] at hm
    simp only at hm
    subst hm
    simp [retry_go, hA, errMsg]
  | succ r ih =>
    intro idx ls h
    obtain ⟨m, hm⟩ := h 0 (Nat.zero_le _)
    simp only [iter_state, Nat.add_zero] at hm
    rcases hA : attempt_once cfg expected ls (serve idx) with ⟨nl, res⟩
    rw [hA] at hm
    simp only at hm
    subst hm
    have hshift : ∀ j, j ≤ r → ∃ m,
        (attempt_once cfg expected (iter_state cfg expected serve (idx + 1) j nl)
          (serve (idx + 1 + j))).2 = .error m := by
      intro j hj
      have := h (j + 1) (Nat.succ_le_succ hj)
      simpa only [iter_state, hA, Nat.add_succ, Nat.succ_add] using this
    have hrec := ih (idx + 1) nl hshift
    have hstate : iter_state cfg expected serve idx (r + 1) ls =
        iter_state cfg expected serve (idx + 1) r nl := by
      simp only [iter_state, hA]
    have hidx : idx + (r + 1) = idx + 1 + r := by omega
    simp only [retry_go, hA, hrec, hstate, hidx, List.replicate_succ]

theorem retry_go_succeeds (cfg : RetryConfig) (fname path : String)
    (expected : Option Int) (serve : Nat → AttemptOutcome) :
    ∀ (j : Nat), ∀ (r idx : Nat) (ls : Option Nat) (n : Nat),
      j ≤ r →
      (∀ i, i < j → ∃ m,
        (attempt_once cfg expected (iter_state cfg expected serve idx i ls)
          (serve (idx + i))).2 = .error m) →
      (attempt_once cfg expected (iter_state cfg expected serve idx j ls)
        (serve (idx + j))).2 = .ok n →
      retry_go cfg fname path expected serve idx r ls =
        (⟨fname, some path, "completed", none, some (n : Int)⟩,
         ⟨j + 1, List.replicate j cfg.retry_delay,
          (attempt_once cfg expected (iter_state cfg expected serve idx j ls)
            (serve (idx + j))).1⟩) := by
  intro j
  induction j with
  | zero =>
    intro r idx ls n _ _ hok
    simp only [iter_state, Nat.add_zero] at hok ⊢
    rcases hA : attempt_once cfg expected ls (serve idx) with ⟨nl, res⟩
    rw [hA] at hok
    simp only at hok
    subst hok
    cases r with
    | zero => simp [retry_go, hA]
    | succ r => simp [retry_go, hA]
  | succ j ih =>
    intro r idx ls n hjr hfail hok
    cases r with
    | zero => omega
    | succ r =>
      obtain ⟨m, hm⟩ := hfail 0 (Nat.zero_lt_succ j)
      simp only [iter_state, Nat.add_zero] at hm
      rcases hA : attempt_once cfg expected ls (serve idx) with ⟨nl, res⟩
      rw [hA] at hm
      simp only at hm
      subst hm
      have hshift : ∀ i, i < j → ∃ m,
          (attempt_once cfg expected (iter_state cfg expected serve (idx + 1) i nl)
            (serve (idx + 1 + i))).2 = .error m := by
        intro i hi
        have := hfail (i + 1) (Nat.succ_lt_succ hi)
        simpa only [iter_state, hA, Nat.add_succ, Nat.succ_add] using this
      have hok' : (attempt_once cfg expected (iter_state cfg expected serve (idx + 1) j nl)
          (serve (idx + 1 + j))).2 = .ok n := by
        have h1 : iter_state cfg expected serve idx (j + 1) ls =
            iter_state cfg expected serve (idx + 1) j nl := by
          simp only [iter_state, hA]
        have h2 : idx + (j + 1) = idx + 1 + j := by omega
        rw [h1, h2] at hok
        exact hok
      have hrec := ih r (idx + 1) nl n (Nat.le_of_succ_le_succ hjr) hshift hok'
      have hstate : iter_state cfg expected serve idx (j + 1) ls =
          iter_state cfg expected serve (idx + 1) j nl := by
        simp only [iter_state, hA]
      have hidx : idx + (j + 1) = idx + 1 + j := by omega
      simp only [retry_go, hA, hrec, hstate, hidx, List.replicate_succ]

/-- C2: for a file whose short-circuit test does not fire, (a) if every
one of the loop's attempts fails, the transfer is attempted exactly
`max_retries + 1` times, a `retry_delay` wait occurs between consecutive
failed attempts but not after the last (`sleeps` has `max_retries`
entries), and the result is `failed` with the last attempt's error message
and `size_bytes = 0`; (b) if the attempts before attempt `j` fail and
attempt `j` (0-based, `j ≤ max_retries`, i.e. the `j+1`-st of at most
`max_retries + 1`) succeeds with `n` bytes on disk, exactly `j + 1`
attempts are performed, `j` waits occur, and the result is `completed`
with `size_bytes` equal to the actual on-disk size `n`. -/
theorem c2_retry_bound (cfg : RetryConfig) (output_dir : String) (file : RemoteFile)
    (fs : String → Option Nat) (serve : Nat → AttemptOutcome)
    (hsc : short_circuit_check file.size_bytes
      (fs (local_path_of output_dir file.filename)) = .ok false) :
    ((∀ j, j ≤ cfg.max_retries → ∃ m,
        (attempt_result cfg file.size_bytes serve
          (fs (local_path_of output_dir file.filename)) j).2 = .error m) →
      download_single_file cfg output_dir file fs serve =
        .ok (⟨file.filename, some (local_path_of output_dir file.filename), "failed",
              errMsg (attempt_result cfg file.size_bytes serve
                (fs (local_path_of output_dir file.filename)) cfg.max_retries).2, some 0⟩,
             ⟨cfg.max_retries + 1, List.replicate cfg.max_retries cfg.retry_delay,
              (attempt_result cfg file.size_bytes serve
                (fs (local_path_of output_dir file.filename)) cfg.max_retries).1⟩))
    ∧ (∀ j n, j ≤ cfg.max_retries →
        (∀ i, i < j → ∃ m,
          (attempt_result cfg file.size_bytes serve
            (fs (local_path_of output_dir file.filename)) i).2 = .error m) →
        (attempt_result cfg file.size_bytes serve
          (fs (local_path_of output_dir file.filename)) j).2 = .ok n →
        download_single_file cfg output_dir file fs serve =
          .ok (⟨file.filename, some (local_path_of output_dir file.filename),
                "completed", none, some (n : Int)⟩,
               ⟨j + 1, List.replicate j cfg.retry_delay,
                (attempt_result cfg file.size_bytes serve
                  (fs (local_path_of output_dir file.filename)) j).1⟩)) := by
  constructor
  · intro hfail
    have := retry_go_all_fail cfg file.filename (local_path_of output_dir file.filename)
      file.size_bytes serve cfg.max_retries 0
      (fs (local_path_of output_dir file.filename))
      (by simpa only [attempt_result, Nat.zero_add] using hfail)
    simp only [download_single_file, hsc, attempt_result, Nat.zero_add] at this ⊢
    rw [this]
  · intro j n hj hfail hok
    have := retry_go_succeeds cfg file.filename (local_path_of output_dir file.filename)
      file.size_bytes serve j cfg.max_retries 0
      (fs (local_path_of output_dir file.filename)) n hj
      (by simpa only [attempt_result, Nat.zero_add] using hfail)
      (by simpa only [attempt_result, Nat.zero_add] using hok)
    simp only [download_single_file, hsc, attempt_result, Nat.zero_add] at this ⊢
    rw [this]

/-- C2, witness: with `max_retries = 2` and `retry_delay = 3`, (a) a
transfer whose request fails on every attempt is attempted `3` times with
two `3`-second waits and ends `failed` with the last error and zero size;
(b) a transfer that fails twice and succeeds on the third attempt performs
exactly `3` attempts and ends `completed` with the on-disk size. -/
theorem c2_retry_bound_witness :
    download_single_file ⟨2, 3, true⟩ "out" ⟨"f.bin", "http://x", some 10⟩
        (fun _ => none) (fun _ => .abortErr "net down") =
      .ok (⟨"f.bin", some "out/f.bin", "failed", some "net down", some 0⟩,
           ⟨3, [3, 3], none⟩)
    ∧ download_single_file ⟨2, 3, true⟩ "out" ⟨"f.bin", "http://x", some 10⟩
        (fun _ => none) (fun i => if i < 2 then .abortErr "net" else .success 10) =
      .ok (⟨"f.bin", some "out/f.bin", "completed", none, some 10⟩,
           ⟨3, [3, 3], some 10⟩) := by
  constructor
  · have h := (c2_retry_bound ⟨2, 3, true⟩ "out" ⟨"f.bin", "http://x", some 10⟩
      (fun _ => none) (fun _ => .abortErr "net down") rfl).1
      (fun j hj => ⟨"net down", by interval_cases j <;> rfl⟩)
    exact h.trans (by decide)
  · have h := (c2_retry_bound ⟨2, 3, true⟩ "out" ⟨"f.bin", "http://x", some 10⟩
      (fun _ => none) (fun i => if i < 2 then .abortErr "net" else .success 10) rfl).2
      2 10 (by decide) (fun i hi => ⟨"net", by interval_cases i <;> rfl⟩) (by decide)
    exact h.trans (by decide)

/-- C3, counterexample.  A known expected size of `0` is reachable (a
`Content-Length: 0` header makes `get_file_size` return `int("0") = 0`),
and with an existing 0-byte file at the derived safe local path the file's
size exactly equals the expected size — the claim then requires an
immediate `completed` with zero transfer attempts.  But the short-circuit
test at downloader.py line 323 is `os.path.exists(local_path) and
expected_size > 0`, which is `False` for `expected_size = 0`, so the code
enters the retry loop: here it performs `2` transfer attempts (not `0`)
and ends `failed` with the network error. -/
theorem c3_counterexample :
    download_single_file ⟨1, 2, true⟩ "out" ⟨"f.bin", "http://x", some 0⟩
        (fun _ => some 0) (fun _ => .abortErr "net down") =
      .ok (⟨"f.bin", some "out/f.bin", "failed", some "net down", some 0⟩,
           ⟨2, [2], some 0⟩)
    ∧ (2 : Nat) ≠ 0 ∧ "failed" ≠ "completed" := by
  refine ⟨by decide, by decide, by decide⟩

/-- C3, as amended: for a remote file with a known positive expected size,
when a file already exists at the derived safe local path with exactly
that size, the Retry Wrapper returns `completed` immediately — zero
transfer attempts (`attempts = 0`), no waits, and a result independent of
the remote oracle `serve` (zero network calls), with `size_bytes` the
expected size.  (With a known expected size of `0` the `expected_size > 0`
test at downloader.py line 323 fails and the transfer proceeds through the
retry loop even if a matching empty file exists — the counterexample
above.) -/
theorem c3_short_circuit (cfg : RetryConfig) (output_dir : String) (file : RemoteFile)
    (fs : String → Option Nat) (e : Int) (s : Nat)
    (hsize : file.size_bytes = some e) (hpos : 0 < e)
    (hfs : fs (local_path_of output_dir file.filename) = some s)
    (heq : (s : Int) = e) (serve : Nat → AttemptOutcome) :
    download_single_file cfg output_dir file fs serve =
      .ok (⟨file.filename, some (local_path_of output_dir file.filename),
            "completed", none, some e⟩, ⟨0, [], some s⟩) := by
  simp [download_single_file, short_circuit_check, pyGtZero, verify_file_integrity,
    hfs, hsize, hpos, heq]

/-- C3, witness: an existing 10-byte file with expected size 10 is
completed with zero attempts, whatever the remote would have answered. -/
theorem c3_short_circuit_witness :
    download_single_file ⟨3, 2, true⟩ "out" ⟨"f.bin", "http://x", some 10⟩
        (fun _ => some 10) (fun _ => .abortErr "unreachable") =
      .ok (⟨"f.bin", some "out/f.bin", "completed", none, some 10⟩,
           ⟨0, [], some 10⟩) := by
  have h := c3_short_circuit ⟨3, 2, true⟩ "out" ⟨"f.bin", "http://x", some 10⟩
    (fun _ => some 10) 10 10 rfl (by decide) rfl (by decide)
    (fun _ => .abortErr "unreachable")
  exact h.trans (by decide)

/-- C6: the code evaluating the claim's scenario.  For a remote file whose
size probe failed (`size_bytes = None`) and no pre-existing local file,
with `max_retries = 1`, the first attempt's transfer itself succeeds
(100 bytes streamed and written), yet `expected_size > 0` at
downloader.py line 341 raises `TypeError` (None vs int), the attempt is
recorded as failed, the retry's resume check `existing_size <
expected_size` (line 384) raises the same way, and the final result is
`failed` with `size_bytes = 0` — not `completed` as the claim (and the
source's own comment `# Verify download if expected size is known`)
prescribe. -/
theorem c6_unknown_size_bug :
    download_single_file ⟨1, 2, true⟩ "out" ⟨"f.bin", "http://x", none⟩
        (fun _ => none) (fun _ => .success 100) =
      .ok (⟨"f.bin", some "out/f.bin", "failed", some typeErrLt, some 0⟩,
           ⟨2, [2], some 100⟩) := by decide

/-- C7, counterexample.  The claim says a raised task becomes a synthetic
`failed` result with zero size; the source (downloader.py line 307) fills
`size_bytes` with `file_info.get("size_bytes", 0)` — the file's probed
size, here `500`, which is not `0`. -/
theorem c7_counterexample :
    collect_task (fun _ => .raised "boom") ⟨"a.cel", "http://x", some 500⟩ =
      ⟨"a.cel", none, "failed", some "boom", some 500⟩
    ∧ some (500 : Int) ≠ some 0 := by
  refine ⟨rfl, ?_⟩
  simp

/-- C7, as amended: in parallel mode each worker task that raises an
exception is converted into a synthetic `FileResult` with status `failed`,
the exception's text as error, and `size_bytes` copied from the input
file's probed size (`None` when the probe failed) — not zero — so the
dispatcher always returns exactly one `FileResult` per input file: the
aggregate count equals the input file count for every completion order. -/
theorem c7_parallel_aggregate (task : RemoteFile → TaskOutcome)
    (files completion_order : List RemoteFile)
    (hperm : completion_order.Perm files) :
    (download_files_parallel task completion_order).length = files.length
    ∧ ∀ file msg, task file = .raised msg →
        collect_task task file = ⟨file.filename, none, "failed", some msg, file.size_bytes⟩ := by
  constructor
  · simpa [download_files_parallel] using hperm.length_eq
  · intro file msg h
    simp [collect_task, h]

/-- C7, witness: two files dispatched, completing in reversed order, both
tasks raising: two results come back, and a raised task's synthetic result
carries the error text and the probed size. -/
theorem c7_parallel_aggregate_witness :
    (download_files_parallel (fun _ => .raised "boom")
        [⟨"b.raw", "http://y", none⟩, ⟨"a.cel", "http://x", some 500⟩]).length = 2
    ∧ ∀ file msg, (fun _ => TaskOutcome.raised "boom") file = .raised msg →
        collect_task (fun _ => .raised "boom") file =
          ⟨file.filename, none, "failed", some msg, file.size_bytes⟩ :=
  c7_parallel_aggregate (fun _ => .raised "boom")
    [⟨"a.cel", "http://x", some 500⟩, ⟨"b.raw", "http://y", none⟩]
    [⟨"b.raw", "http://y", none⟩, ⟨"a.cel", "http://x", some 500⟩]
    (List.Perm.swap _ _ _)

theorem derive_status_all_completed (results : List FileResult)
    (h : ∀ r ∈ results, r.status = "completed") :
    derive_status results = "completed" := by
  have hf : results.filter (fun r => r.status == "completed") = results :=
    List.filter_eq_self.mpr (fun r hr => by simp [h r hr])
  simp [derive_status, hf]

theorem derive_status_none_completed (results : List FileResult)
    (hne : results ≠ []) (h : ∀ r ∈ results, r.status ≠ "completed") :
    derive_status results = "failed" := by
  have hf : results.filter (fun r => r.status == "completed") = [] :=
    List.filter_eq_nil_iff.mpr (fun r hr => by simp [h r hr])
  have hlen : 0 < results.length := List.length_pos.mpr hne
  have h1 : (((results.filter (fun r => r.status == "completed")).length
      == results.length)) = false := by
    rw [hf]
    simp only [List.length_nil, beq_eq_false_iff_ne, ne_eq]
    omega
  simp [derive_status, h1, hf]
  omega

theorem derive_status_some_completed (results : List FileResult)
    (h1 : ∃ r ∈ results, r.status = "completed")
    (h2 : ∃ r ∈ results, r.status ≠ "completed") :
    derive_status results = "partial" := by
  have hpos : 0 < (results.filter (fun r => r.status == "completed")).length := by
    rcases h1 with ⟨r, hr, hs⟩
    exact List.length_pos.mpr (fun hnil =>
      (List.filter_eq_nil_iff.mp hnil) r hr (by simp [hs]))
  have hlt : (results.filter (fun r => r.status == "completed")).length
      < results.length := by
    rcases Nat.lt_or_ge ((results.filter (fun r => r.status == "completed")).length)
      results.length with hlt | hge
    · exact hlt
    · exfalso
      have heqn : (results.filter (fun r => r.status == "completed")).length
          = results.length :=
        Nat.le_antisymm (List.length_filter_le _ _) hge
      rcases h2 with ⟨r, hr, hs⟩
      exact hs (by simpa using List.filter_length_eq_length.mp heqn r hr)
  have hne : (((results.filter (fun r => r.status == "completed")).length
      == results.length)) = false := by
    simp only [beq_eq_false_iff_ne, ne_eq]
    omega
  simp [derive_status, hne, hpos]

/-- C1: the dataset status returned by `download_gse_dataset` is derived
from the per-file outcomes — `completed` when every `FileResult` is
completed, `partial` when at least one but not all are, `failed` when none
is; a resolution error yields `failed` with that error and an empty file
list; zero raw files yields `no_raw_data`. -/
theorem c1_dataset_status (gse_id : String) (meta_error : Option String)
    (raw_files : List RemoteFile) (dl : RemoteFile → FileResult) :
    (∀ e, meta_error = some e →
        download_gse_dataset gse_id meta_error raw_files dl =
          ⟨gse_id, "failed", some e, []⟩)
    ∧ (meta_error = none → raw_files = [] →
        download_gse_dataset gse_id meta_error raw_files dl =
          ⟨gse_id, "no_raw_data", some "No raw data files found", []⟩)
    ∧ (meta_error = none → raw_files ≠ [] →
        (download_gse_dataset gse_id meta_error raw_files dl).files = raw_files.map dl
        ∧ (download_gse_dataset gse_id meta_error raw_files dl).error = none
        ∧ ((∀ r ∈ raw_files.map dl, r.status = "completed") →
            (download_gse_dataset gse_id meta_error raw_files dl).status = "completed")
        ∧ ((∃ r ∈ raw_files.map dl, r.status = "completed") →
            (∃ r ∈ raw_files.map dl, r.status ≠ "completed") →
            (download_gse_dataset gse_id meta_error raw_files dl).status = "partial")
        ∧ ((∀ r ∈ raw_files.map dl, r.status ≠ "completed") →
            (download_gse_dataset gse_id meta_error raw_files dl).status = "failed")) := by
  refine ⟨?_, ?_, ?_⟩
  · intro e he
    subst he
    rfl
  · intro he hr
    subst he hr
    rfl
  · intro he hr
    subst he
    have hne : raw_files.isEmpty = false := by
      cases raw_files with
      | nil => exact absurd rfl hr
      | cons a l => rfl
    have hmapne : raw_files.map dl ≠ [] := by
      simpa [List.map_eq_nil_iff] using hr
    refine ⟨by simp [download_gse_dataset, hne], by simp [download_gse_dataset, hne],
      ?_, ?_, ?_⟩
    · intro h
      simp only [download_gse_dataset, hne]
      exact derive_status_all_completed _ h
    · intro h1 h2
      simp only [download_gse_dataset, hne]
      exact derive_status_some_completed _ h1 h2
    · intro h
      simp only [download_gse_dataset, hne]
      exact derive_status_none_completed _ hmapne h

/-- C10 (implicit): in the run summary, the `failed` count is exactly the
number of datasets whose status is `failed` plus the number whose status
is `no_raw_data` (a dataset with no raw files counts as a failure), and
for any result list whose statuses are among the four produced by
`download_gse_dataset`, `completed + partial + failed = total`. -/
theorem c10_failed_count (results : List DatasetResult)
    (hall : ∀ r ∈ results, r.status = "completed" ∨ r.status = "partial"
        ∨ r.status = "failed" ∨ r.status = "no_raw_data") :
    (run_summary results).failed =
        (results.filter (fun r => r.status == "failed")).length
          + (results.filter (fun r => r.status == "no_raw_data")).length
    ∧ (run_summary results).completed + (run_summary results).partialCount
        + (run_summary results).failed = (run_summary results).total := by
  constructor
  · simp only [run_summary]
    clear hall
    induction results with
    | nil => rfl
    | cons r rest ih =>
      by_cases hf : r.status = "failed"
      · have hn : (r.status == "no_raw_data") = false := by simp [hf]
        simp [List.filter_cons, hf, hn, ih]
        omega
      · by_cases hn : r.status = "no_raw_data"
        · have hf' : (r.status == "failed") = false := by simp [hf]
          simp [List.filter_cons, hf', hn, ih]
          omega
        · have hf' : (r.status == "failed") = false := by simp [hf]
          have hn' : (r.status == "no_raw_data") = false := by simp [hn]
          simp [List.filter_cons, hf', hn', ih]
  · simp only [run_summary]
    induction results with
    | nil => rfl
    | cons r rest ih =>
      have ihr := ih (fun x hx => hall x (List.mem_cons_of_mem r hx))
      have hr := hall r (List.mem_cons_self r rest)
      rcases hr with h | h | h | h <;>
        simp [List.filter_cons, h, List.length_cons, ihr] <;> omega

/-- C10, witness: one dataset of each status — the failed count is
`1 + 1 = 2` and the counts sum to the total `4`. -/
theorem c10_failed_count_witness :
    (run_summary [⟨"GSE1", "completed", none, []⟩, ⟨"GSE2", "partial", none, []⟩,
        ⟨"GSE3", "failed", none, []⟩, ⟨"GSE4", "no_raw_data", none, []⟩]).failed =
      ([⟨"GSE3", "failed", none, []⟩] : List DatasetResult).length
        + ([⟨"GSE4", "no_raw_data", none, []⟩] : List DatasetResult).length
    ∧ (run_summary [⟨"GSE1", "completed", none, []⟩, ⟨"GSE2", "partial", none, []⟩,
        ⟨"GSE3", "failed", none, []⟩, ⟨"GSE4", "no_raw_data", none, []⟩]).completed
      + (run_summary [⟨"GSE1", "completed", none, []⟩, ⟨"GSE2", "partial", none, []⟩,
        ⟨"GSE3", "failed", none, []⟩, ⟨"GSE4", "no_raw_data", none, []⟩]).partialCount
      + (run_summary [⟨"GSE1", "completed", none, []⟩, ⟨"GSE2", "partial", none, []⟩,
        ⟨"GSE3", "failed", none, []⟩, ⟨"GSE4", "no_raw_data", none, []⟩]).failed
      = (run_summary [⟨"GSE1", "completed", none, []⟩, ⟨"GSE2", "partial", none, []⟩,
        ⟨"GSE3", "failed", none, []⟩, ⟨"GSE4", "no_raw_data", none, []⟩]).total := by
  have h := c10_failed_count
    [⟨"GSE1", "completed", none, []⟩, ⟨"GSE2", "partial", none, []⟩,
     ⟨"GSE3", "failed", none, []⟩, ⟨"GSE4", "no_raw_data", none, []⟩]
    (by decide)
  exact ⟨h.1.trans (by decide), h.2⟩

theorem status_find_update_self (m : StatusMap) (k : String) (v : DatasetResult) :
    status_find (status_update m k v) k = some v := by
  induction m with
  | nil => simp [status_update, status_find]
  | cons p rest ih =>
    by_cases h : p.1 = k
    · simp [status_update, status_find, h]
    · simp [status_update, status_find, h, ih]

theorem status_find_update_other (m : StatusMap) (k k' : String) (v : DatasetResult)
    (h : k' ≠ k) : status_find (status_update m k v) k' = status_find m k' := by
  induction m with
  | nil => simp [status_update, status_find, Ne.symm h]
  | cons p rest ih =>
    by_cases hp : p.1 = k
    · simp [status_update, status_find, hp, Ne.symm h, h]
    · by_cases hp' : p.1 = k'
      · simp [status_update, status_find, hp, hp', h]
      · simp [status_update, status_find, hp, hp', ih]

theorem run_loop_find_untouched (process : String → DatasetResult) :
    ∀ (ids : List String) (i : Nat) (st : StatusMap) (k : String), k ∉ ids →
      status_find (run_loop process i st ids).1 k = status_find st k := by
  intro ids
  induction ids with
  | nil => intro i st k _; rfl
  | cons a l ih =>
    intro i st k hk
    have hka : k ≠ a := fun h => hk (h ▸ List.mem_cons_self a l)
    have hkl : k ∉ l := fun h => hk (List.mem_cons_of_mem a h)
    simp only [run_loop]
    rw [ih (i + 1) _ k hkl]
    exact status_find_update_other st a k (process a) hka

theorem run_loop_find_mem (process : String → DatasetResult) :
    ∀ (ids : List String) (i : Nat) (st : StatusMap) (id : String), id ∈ ids →
      status_find (run_loop process i st ids).1 id = some (process id) := by
  intro ids
  induction ids with
  | nil => intro i st id h; exact absurd h (List.not_mem_nil id)
  | cons a l ih =>
    intro i st id hid
    rcases List.mem_cons.mp hid with rfl | hmem
    · by_cases hl : id ∈ l
      · simpa only [run_loop] using ih (i + 1) _ id hl
      · simp only [run_loop]
        rw [run_loop_find_untouched process l (i + 1) _ id hl]
        exact status_find_update_self st id (process id)
    · simpa only [run_loop] using ih (i + 1) _ id hmem

theorem run_loop_saves_length (process : String → DatasetResult) :
    ∀ (ids : List String) (i : Nat) (st : StatusMap), 1 ≤ i →
      (run_loop process i st ids).2.1.length = (i + ids.length - 1) / 5 - (i - 1) / 5 := by
  intro ids
  induction ids with
  | nil =>
    intro i st hi
    simp only [run_loop, List.length_nil]
    omega
  | cons a l ih =>
    intro i st hi
    have hrec := ih (i + 1) (status_update st a (process a)) (by omega)
    by_cases h5 : i % 5 = 0
    · simp [run_loop, hrec, h5]
      omega
    · simp [run_loop, hrec, h5]
      omega

/-- C8: for every non-empty identifier list, the Orchestrator's final
in-memory `RunStatus` holds, for each identifier, the `DatasetResult` of
its last processing (the in-memory entry is updated after every dataset);
the status file is written once per 5 datasets (after every 5th, i.e.
`⌊n/5⌋` periodic saves) plus unconditionally once more at the end, the
final save being the complete final status; and at start a missing status
file is tolerated as the empty status while a corrupt one is discarded
(empty status, with a warning, not an abort — loading is total). -/
theorem c8_orchestrator (process : String → DatasetResult) (statusFile : StatusFile)
    (gse_ids : List String) (hne : gse_ids ≠ []) :
    ∃ out, download_multiple_datasets process statusFile gse_ids = some out
      ∧ (∀ id ∈ gse_ids, status_find out.2.2 id = some (process id))
      ∧ out.2.1.length = gse_ids.length / 5 + 1
      ∧ out.2.1.getLast? = some out.2.2
      ∧ load_download_status .missing = [] ∧ load_download_status .corrupt = [] := by
  have hisEmpty : gse_ids.isEmpty = false := by
    cases gse_ids with
    | nil => exact absurd rfl hne
    | cons a l => rfl
  refine ⟨(run_summary (run_loop process 1 (load_download_status statusFile) gse_ids).2.2,
      (run_loop process 1 (load_download_status statusFile) gse_ids).2.1
        ++ [(run_loop process 1 (load_download_status statusFile) gse_ids).1],
      (run_loop process 1 (load_download_status statusFile) gse_ids).1),
    ?_, ?_, ?_, ?_, rfl, rfl⟩
  · simp [download_multiple_datasets, hisEmpty]
  · intro id hid
    exact run_loop_find_mem process gse_ids 1 _ id hid
  · have := run_loop_saves_length process gse_ids 1
      (load_download_status statusFile) (by omega)
    simp only [List.length_append, List.length_singleton, this]
    omega
  · exact List.getLast?_concat _

/-- C8, witness: six datasets starting from a corrupt status file — one
periodic save (after the 5th dataset) plus the final save, and the final
status maps each identifier to its result. -/
theorem c8_orchestrator_witness :
    ∃ out, download_multiple_datasets (fun id => ⟨id, "completed", none, []⟩) .corrupt
        ["GSE1", "GSE2", "GSE3", "GSE4", "GSE5", "GSE6"] = some out
      ∧ (∀ id ∈ ["GSE1", "GSE2", "GSE3", "GSE4", "GSE5", "GSE6"],
          status_find out.2.2 id = some ⟨id, "completed", none, []⟩)
      ∧ out.2.1.length = ([ "GSE1", "GSE2", "GSE3", "GSE4", "GSE5", "GSE6"].length) / 5 + 1
      ∧ out.2.1.getLast? = some out.2.2
      ∧ load_download_status .missing = [] ∧ load_download_status .corrupt = [] :=
  c8_orchestrator (fun id => ⟨id, "completed", none, []⟩) .corrupt
    ["GSE1", "GSE2", "GSE3", "GSE4", "GSE5", "GSE6"] (by simp)

/-- C9: the code evaluating the claim's scenario.  A run whose datasets
are one `completed` and one `partial` (derived by `download_gse_dataset`
from one fully-successful and one half-successful file list) has
`failed == 0`, so `main` takes the `sys.exit(0)` branch (cli.py line 321,
printing `[SUCCESS] All downloads completed successfully!`) although a
dataset is only partially downloaded — the claim requires a non-zero exit
status whenever some dataset is `partial`. -/
theorem c9_exit_code_bug :
    main_exit_code (run_summary
      [download_gse_dataset "GSE1" none [⟨"a.raw", "u1", some 5⟩]
        (fun f => ⟨f.filename, some "out/a.raw", "completed", none, some 5⟩),
       download_gse_dataset "GSE2" none [⟨"b.raw", "u2", some 5⟩, ⟨"c.raw", "u3", some 5⟩]
        (fun f => if f.filename = "b.raw"
          then ⟨f.filename, some "out/b.raw", "completed", none, some 5⟩
          else ⟨f.filename, some "out/c.raw", "failed", some "net", some 0⟩)]) = 0
    ∧ (run_summary
      [download_gse_dataset "GSE1" none [⟨"a.raw", "u1", some 5⟩]
        (fun f => ⟨f.filename, some "out/a.raw", "completed", none, some 5⟩),
       download_gse_dataset "GSE2" none [⟨"b.raw", "u2", some 5⟩, ⟨"c.raw", "u3", some 5⟩]
        (fun f => if f.filename = "b.raw"
          then ⟨f.filename, some "out/b.raw", "completed", none, some 5⟩
          else ⟨f.filename, some "out/c.raw", "failed", some "net", some 0⟩)]).partialCount
      = 1 := by
  constructor <;> decide

end GeoDL
